import Mathlib

/-!
Verification of the Chord DHT node implementation (chord/node.rs).

The embedding below translates the node data model and the ring-protocol
operations of the source into Lean. Machine integers (the u64 Digest) are
modelled as Nat with explicit reduction modulo 2 ^ 64 where the source can
wrap. Remote procedure calls are resolved against a static network view, a
list of node-server states keyed by node id; a call to an id that is absent
models a failing RPC. Operations whose Rust source can panic (unwrap on an
RPC result, unwrap of an empty option, the self-connection panic in
get_connection) return Option, with none as the panic outcome.
-/

namespace Chord

/-- Width in bits of the Digest type: size_of::<u64>() * 8 = 64 (NUM_BITS). -/
def NUM_BITS : Nat := 64

/-- Modulus of the u64 identifier space: 2 ^ 64. -/
def U64_MOD : Nat := 2 ^ 64

/-- Data part of the node: struct Node has fields id (a u64 Digest) and addr. -/
structure Node where
  id : Nat
  addr : String
deriving DecidableEq, Repr

/-- State of a node server: own Node, optional successor and predecessor, the
finger table of NUM_BITS optional entries, and the connection map, of which we
track the set of keys (remote node ids) as a list. -/
structure NodeServer where
  node : Node
  successor : Option Node
  predecessor : Option Node
  finger_table : List (Option Node)
  connection_map : List Nat
deriving DecidableEq, Repr

/-- NodeServer::new: a ring with only one node; every finger entry, the
successor and the predecessor are the node itself, the connection map empty. -/
def NodeServer.new (node : Node) : NodeServer :=
  { node := node
    successor := some node
    predecessor := some node
    finger_table := List.replicate NUM_BITS (some node)
    connection_map := [] }

/-- finger_table_start: the source computes
(self.node.id + (1 << k)) % (NUM_BITS as u64), i.e. it reduces modulo
NUM_BITS = 64, not modulo 2 ^ 64; the u64 addition itself wraps mod 2 ^ 64. -/
def NodeServer.finger_table_start (s : NodeServer) (k : Nat) : Nat :=
  ((s.node.id + 2 ^ k) % U64_MOD) % NUM_BITS

/-- get_connection: panics when the requested node has the caller's own id
(modelled as none); otherwise returns the state whose connection map also
holds the requested id (an occupied entry is reused unchanged). -/
def NodeServer.get_connection (s : NodeServer) (n : Node) : Option NodeServer :=
  if n.id = s.node.id then none
  else some { s with connection_map :=
    if n.id ∈ s.connection_map then s.connection_map else n.id :: s.connection_map }

/-- The static network view used to resolve remote procedure calls. -/
abbrev Net := List NodeServer

/-- Resolve a remote node id to its server state; none models a failing RPC. -/
def lookupNode (net : Net) (id : Nat) : Option NodeServer :=
  net.find? (fun s => s.node.id == id)

/-- Scan of closest_preceding_finger: the source iterates indices
NUM_BITS-1 down to 0 and returns the first finger n with
n.id > id && n.id < self.node.id; if none matches it returns self. -/
def cpfScan (selfNode : Node) (id : Nat) : List (Option Node) → Node
  | [] => selfNode
  | entry :: rest =>
    match entry with
    | some n => if id < n.id ∧ n.id < selfNode.id then n else cpfScan selfNode id rest
    | none => cpfScan selfNode id rest

/-- closest_preceding_finger (Figure 4 comment in the source): scan the finger
table from the top index downward with the test n.id > id && n.id < self.id. -/
def NodeServer.closest_preceding_finger (s : NodeServer) (id : Nat) : Node :=
  cpfScan s.node id s.finger_table.reverse

/-- Loop of find_predecessor: while id > n.id && id < succ.id, the source gets
a connection to n (panic when n is self), asks n for its closest preceding
finger of id, gets a connection to the result, and refreshes succ from its
get_successor (panicking on a failed RPC or an empty successor). Fuel bounds
the iteration count; exhausted fuel also yields none. -/
def find_predecessor_loop (net : Net) :
    Nat → NodeServer → Nat → Node → Node → Option (NodeServer × Node)
  | 0, _, _, _, _ => none
  | fuel + 1, s, id, n, succ =>
    if n.id < id ∧ id < succ.id then
      match s.get_connection n with
      | none => none
      | some s1 =>
        match lookupNode net n.id with
        | none => none
        | some rn =>
          match s1.get_connection (rn.closest_preceding_finger id) with
          | none => none
          | some s2 =>
            match lookupNode net (rn.closest_preceding_finger id).id with
            | none => none
            | some rn2 =>
              match rn2.successor with
              | none => none
              | some succ2 =>
                find_predecessor_loop net fuel s2 id (rn.closest_preceding_finger id) succ2
    else some (s, n)

/-- find_predecessor (Figure 4 comment in the source): start from n = self and
n's successor (panic when the successor is unset) and run the loop. -/
def NodeServer.find_predecessor (net : Net) (s : NodeServer) (id fuel : Nat) :
    Option (NodeServer × Node) :=
  match s.successor with
  | none => none
  | some succ => find_predecessor_loop net fuel s id s.node succ

/-- find_successor (Figure 4 comment in the source): let n = find_predecessor
of id; if n is self, return the own successor (unwrap), else ask n for its
successor over a connection (unwrap of the RPC and of the option). -/
def NodeServer.find_successor (net : Net) (s : NodeServer) (id fuel : Nat) :
    Option (NodeServer × Node) :=
  match s.find_predecessor net id fuel with
  | none => none
  | some (s1, n) =>
    if n.id = s1.node.id then
      match s1.successor with
      | none => none
      | some v => some (s1, v)
    else
      match s1.get_connection n with
      | none => none
      | some s2 =>
        match lookupNode net n.id with
        | none => none
        | some rn =>
          match rn.successor with
          | none => none
          | some v => some (s2, v)

/-- join (Figure 7 comment in the source): clear the predecessor, connect to
the introducer and set the successor to the introducer's answer to
find_successor_rpc applied to node.id, the id of the INTRODUCER argument
(the source passes node.id, not self.id). -/
def NodeServer.join (net : Net) (s : NodeServer) (node : Node) (fuel : Nat) :
    Option NodeServer :=
  let s1 : NodeServer := { s with predecessor := none }
  match s1.get_connection node with
  | none => none
  | some s2 =>
    match lookupNode net node.id with
    | none => none
    | some rn =>
      match rn.find_successor net node.id fuel with
      | none => none
      | some (_, v) => some { s2 with successor := some v }

/-- stabilize (Figure 7 comment in the source): return unchanged when the
successor is unset (warn) or is self; otherwise connect to the successor and
fetch x, its predecessor (unwrap of the RPC: none on failure); when x is unset
the source warns and returns WITHOUT notifying; when x is set it sends
notify_rpc(self) to the old successor and then adopts x as successor exactly
when x.id > self.id && x.id < successor.id (plain comparisons, no wrap). The
Bool in the result records whether notify was sent. -/
def NodeServer.stabilize (net : Net) (s : NodeServer) : Option (NodeServer × Bool) :=
  match s.successor with
  | none => some (s, false)
  | some succ =>
    if succ.id = s.node.id then some (s, false)
    else
      match s.get_connection succ with
      | none => none
      | some s1 =>
        match lookupNode net succ.id with
        | none => none
        | some rn =>
          match rn.predecessor with
          | none => some (s1, false)
          | some x =>
            if s.node.id < x.id ∧ x.id < succ.id then
              some ({ s1 with successor := some x }, true)
            else
              some (s1, true)

/-- notify (Figure 7 comment in the source): adopt the candidate when the
predecessor is unset; otherwise keep the old predecessor v unless
candidate.id > v.id && candidate.id < self.id (plain comparisons, no wrap). -/
def NodeServer.notify (s : NodeServer) (node : Node) : NodeServer :=
  let new_pred : Node :=
    match s.predecessor with
    | some v => if v.id < node.id ∧ node.id < s.node.id then node else v
    | none => node
  { s with predecessor := some new_pred }

/-- fix_fingers (Figure 7 comment in the source): for an index i, drawn by the
source from the range 1..NUM_BITS, set finger_table[i] to the result of
find_successor applied to finger_table_start(i). -/
def NodeServer.fix_fingers (net : Net) (s : NodeServer) (i fuel : Nat) :
    Option NodeServer :=
  match s.find_successor net (s.finger_table_start i) fuel with
  | none => none
  | some (s1, v) => some { s1 with finger_table := s1.finger_table.set i (some v) }

/-- Fold a sequence of get_connection requests over a node-server state; a
request that panics (none) leaves the state as it was. -/
def applyGets : NodeServer → List Node → NodeServer
  | s, [] => s
  | s, n :: rest =>
    applyGets (match s.get_connection n with | some s1 => s1 | none => s) rest

/-- Ring interval predicate of the spec (section 3): x lies strictly between a
and b going clockwise; false when a = b; wraps through 0 when a > b. This
definition follows the words of the spec, for comparison against the code. -/
def spec_in_open (x a b : Nat) : Bool :=
  if a = b then false
  else if a < b then decide (a < x ∧ x < b)
  else decide (a < x ∨ x < b)

/-- Ring half-open interval predicate of the spec (section 3): like
spec_in_open but including the right endpoint b; true at x = b when a = b.
This definition follows the words of the spec, for comparison against the
code. -/
def spec_in_half_open (x a b : Nat) : Bool :=
  if a = b then decide (x = b)
  else if a < b then decide (a < x ∧ x ≤ b)
  else decide (a < x ∨ x ≤ b)

/-- Fixture: a node with id 0. -/
def nodeA1 : Node := ⟨0, "a"⟩

/-- Fixture: a node with id 10. -/
def nodeB1 : Node := ⟨10, "b"⟩

/-- Fixture: server of nodeA1 whose successor is nodeB1. -/
def serverA1 : NodeServer :=
  { node := nodeA1, successor := some nodeB1, predecessor := some nodeA1,
    finger_table := List.replicate NUM_BITS (some nodeA1), connection_map := [] }

/-- Fixture: a network holding only the solo server of nodeB1. -/
def net1 : Net := [NodeServer.new nodeB1]

/-- Fixture: a node with id 0 of a converged two-node ring. -/
def node0 : Node := ⟨0, "n0"⟩

/-- Fixture: a node with id 10 of a converged two-node ring. -/
def node10 : Node := ⟨10, "n10"⟩

/-- Fixture: a joining node with id 5. -/
def node5 : Node := ⟨5, "n5"⟩

/-- Fixture: server of node0 in the converged ring of node0 and node10. -/
def server0 : NodeServer :=
  { node := node0, successor := some node10, predecessor := some node10,
    finger_table := List.replicate NUM_BITS (some node0), connection_map := [] }

/-- Fixture: server of node10 in the converged ring of node0 and node10. -/
def server10 : NodeServer :=
  { node := node10, successor := some node0, predecessor := some node0,
    finger_table := List.replicate NUM_BITS (some node10), connection_map := [] }

/-- Fixture: the converged two-node network of server0 and server10. -/
def net3 : Net := [server0, server10]

/-- Fixture: a node with id 7, sitting in every finger entry of serverC5. -/
def node7 : Node := ⟨7, "n7"⟩

/-- Fixture: server with id 10 whose finger table holds only node7. -/
def serverC5 : NodeServer :=
  { node := ⟨10, "s5a"⟩, successor := some node7, predecessor := some node7,
    finger_table := List.replicate NUM_BITS (some node7), connection_map := [] }

/-- Fixture: a node with id 0 whose successor is nodeB4. -/
def nodeA4 : Node := ⟨0, "a4"⟩

/-- Fixture: a node with id 10 whose server has no predecessor. -/
def nodeB4 : Node := ⟨10, "b4"⟩

/-- Fixture: server of nodeB4 with an unset predecessor. -/
def serverB4 : NodeServer :=
  { node := nodeB4, successor := some nodeB4, predecessor := none,
    finger_table := List.replicate NUM_BITS (some nodeB4), connection_map := [] }

/-- Fixture: server of nodeA4 whose successor is nodeB4. -/
def serverA4 : NodeServer :=
  { node := nodeA4, successor := some nodeB4, predecessor := some nodeA4,
    finger_table := List.replicate NUM_BITS (some nodeA4), connection_map := [] }

/-- Fixture: network holding only serverB4, whose predecessor is unset. -/
def netC4a : Net := [serverB4]

/-- Fixture: a node with id 10 placed just before the wrap point of the ring. -/
def nodeX10 : Node := ⟨10, "x"⟩

/-- Fixture: a node with id 2, the successor of nodeX10 across the wrap. -/
def node2 : Node := ⟨2, "y"⟩

/-- Fixture: a node with id 12, lying on the wrapped arc between 10 and 2. -/
def node12 : Node := ⟨12, "z"⟩

/-- Fixture: server of node2 whose predecessor is node12. -/
def server2 : NodeServer :=
  { node := node2, successor := some nodeX10, predecessor := some node12,
    finger_table := List.replicate NUM_BITS (some node2), connection_map := [] }

/-- Fixture: server of nodeX10 whose successor is node2 (ring arc wraps). -/
def serverX10 : NodeServer :=
  { node := nodeX10, successor := some node2, predecessor := some node12,
    finger_table := List.replicate NUM_BITS (some nodeX10), connection_map := [] }

/-- Fixture: network holding only server2. -/
def netC4b : Net := [server2]

/-- Fixture: a node with id 60, predecessor of the server s6. -/
def node60 : Node := ⟨60, "p6"⟩

/-- Fixture: server with id 10 whose predecessor is node60 (wrap position). -/
def s6 : NodeServer :=
  { node := ⟨10, "s6"⟩, successor := some node60, predecessor := some node60,
    finger_table := List.replicate NUM_BITS (some node60), connection_map := [] }

/-- Fixture: a candidate with id 5, on the wrapped arc between 60 and 10. -/
def cand5 : Node := ⟨5, "c6"⟩

/-- Fixture: a node with id 1 of the converged witness pair. -/
def ndP : Node := ⟨1, "p"⟩

/-- Fixture: a node with id 2 of the converged witness pair. -/
def ndQ : Node := ⟨2, "q"⟩

/-- Fixture: server of ndP, converged with serverQ. -/
def serverP : NodeServer :=
  { node := ndP, successor := some ndQ, predecessor := some ndQ,
    finger_table := List.replicate NUM_BITS (some ndP), connection_map := [] }

/-- Fixture: server of ndQ, converged with serverP. -/
def serverQ : NodeServer :=
  { node := ndQ, successor := some ndP, predecessor := some ndP,
    finger_table := List.replicate NUM_BITS (some ndQ), connection_map := [] }

/-- Fixture: the converged witness network of serverP and serverQ. -/
def netW : Net := [serverP, serverQ]

/-- Fixture: a solo node with id 0 used by the C8 and C10 witnesses. -/
def ndF : Node := ⟨0, "f"⟩

/-- Fixture: the state of the solo server of ndF after fix_fingers at index 1. -/
def sF2 : NodeServer :=
  { node := ndF, successor := some ndF, predecessor := some ndF,
    finger_table := (List.replicate NUM_BITS (some ndF)).set 1 (some ndF),
    connection_map := [] }

/-- A successful get_connection changes nothing but the connection map. -/
lemma get_connection_frame {s s1 : NodeServer} {n : Node}
    (h : s.get_connection n = some s1) :
    s1.node = s.node ∧ s1.successor = s.successor ∧ s1.predecessor = s.predecessor ∧
    s1.finger_table = s.finger_table ∧
    ∀ k, k ∈ s.connection_map → k ∈ s1.connection_map := by
  unfold NodeServer.get_connection at h
  by_cases hid : n.id = s.node.id
  · simp [hid] at h
  · rw [if_neg hid] at h
    injection h with h
    subst h
    refine ⟨rfl, rfl, rfl, rfl, fun k hk => ?_⟩
    by_cases hmem : n.id ∈ s.connection_map
    · simpa [hmem] using hk
    · simp only [hmem, if_false]
      exact List.mem_cons_of_mem _ hk

/-- A successful get_connection was not for the own id, and adds at most the
requested id to the key set of the connection map. -/
lemma get_connection_keys {s s1 : NodeServer} {n : Node}
    (h : s.get_connection n = some s1) :
    n.id ≠ s.node.id ∧ ∀ k, k ∈ s1.connection_map → k = n.id ∨ k ∈ s.connection_map := by
  unfold NodeServer.get_connection at h
  by_cases hid : n.id = s.node.id
  · simp [hid] at h
  · rw [if_neg hid] at h
    injection h with h
    subst h
    refine ⟨hid, fun k hk => ?_⟩
    by_cases hmem : n.id ∈ s.connection_map
    · right; simpa [hmem] using hk
    · simp only [hmem, if_false] at hk
      rcases List.mem_cons.mp hk with h1 | h1
      · exact Or.inl h1
      · exact Or.inr h1

/-- Folding get_connection requests preserves the own Node and never lets the
own id into the connection map. -/
lemma applyGets_inv :
    ∀ (reqs : List Node) (s : NodeServer), s.node.id ∉ s.connection_map →
    (applyGets s reqs).node = s.node ∧
    (applyGets s reqs).node.id ∉ (applyGets s reqs).connection_map := by
  intro reqs
  induction reqs with
  | nil => intro s h; exact ⟨rfl, h⟩
  | cons n rest ih =>
    intro s h
    unfold applyGets
    cases hgc : s.get_connection n with
    | none => exact ih s h
    | some s1 =>
      obtain ⟨hnode, -, -, -, -⟩ := get_connection_frame hgc
      obtain ⟨hne, hkeys⟩ := get_connection_keys hgc
      have h1 : s1.node.id ∉ s1.connection_map := by
        intro hmem
        rcases hkeys _ hmem with he | he
        · rw [hnode] at he; exact hne he.symm
        · rw [hnode] at he; exact h he
      obtain ⟨ha, hb⟩ := ih s1 h1
      exact ⟨ha.trans hnode, hb⟩

/-- The loop of find_predecessor changes nothing of the caller state but the
connection map, which only grows. -/
lemma fp_loop_frame (net : Net) :
    ∀ (fuel : Nat) (s : NodeServer) (id : Nat) (n succ : Node)
      (s1 : NodeServer) (r : Node),
    find_predecessor_loop net fuel s id n succ = some (s1, r) →
    s1.node = s.node ∧ s1.successor = s.successor ∧ s1.predecessor = s.predecessor ∧
    s1.finger_table = s.finger_table ∧
    ∀ k, k ∈ s.connection_map → k ∈ s1.connection_map := by
  intro fuel
  induction fuel with
  | zero =>
    intro s id n succ s1 r h
    simp [find_predecessor_loop] at h
  | succ fuel ih =>
    intro s id n succ s1 r h
    unfold find_predecessor_loop at h
    by_cases hcond : n.id < id ∧ id < succ.id
    · rw [if_pos hcond] at h
      cases hg1 : s.get_connection n with
      | none => simp [hg1] at h
      | some sa =>
        simp only [hg1] at h
        cases hl1 : lookupNode net n.id with
        | none => simp [hl1] at h
        | some rn =>
          simp only [hl1] at h
          cases hg2 : sa.get_connection (rn.closest_preceding_finger id) with
          | none => simp [hg2] at h
          | some sb =>
            simp only [hg2] at h
            cases hl2 : lookupNode net (rn.closest_preceding_finger id).id with
            | none => simp [hl2] at h
            | some rn2 =>
              simp only [hl2] at h
              cases hsucc : rn2.successor with
              | none => simp [hsucc] at h
              | some succ2 =>
                simp only [hsucc] at h
                obtain ⟨f1, f2, f3, f4, f5⟩ := get_connection_frame hg1
                obtain ⟨g1, g2, g3, g4, g5⟩ := get_connection_frame hg2
                obtain ⟨i1, i2, i3, i4, i5⟩ := ih sb id
                  (rn.closest_preceding_finger id) succ2 s1 r h
                refine ⟨i1.trans (g1.trans f1), i2.trans (g2.trans f2),
                        i3.trans (g3.trans f3), i4.trans (g4.trans f4),
                        fun k hk => i5 k (g5 k (f5 k hk))⟩
    · rw [if_neg hcond] at h
      injection h with h
      injection h with h1 h2
      subst h1
      exact ⟨rfl, rfl, rfl, rfl, fun k hk => hk⟩

/-- find_predecessor changes nothing of the caller state but the connection
map, which only grows. -/
lemma find_predecessor_frame {net : Net} {s : NodeServer} {id fuel : Nat}
    {s1 : NodeServer} {r : Node}
    (h : s.find_predecessor net id fuel = some (s1, r)) :
    s1.node = s.node ∧ s1.successor = s.successor ∧ s1.predecessor = s.predecessor ∧
    s1.finger_table = s.finger_table ∧
    ∀ k, k ∈ s.connection_map → k ∈ s1.connection_map := by
  unfold NodeServer.find_predecessor at h
  cases hs : s.successor with
  | none => simp [hs] at h
  | some succ =>
    simp only [hs] at h
    obtain ⟨a, b, c, d, e⟩ := fp_loop_frame net fuel s id s.node succ s1 r h
    exact ⟨a, b.trans hs, c, d, e⟩

/-- find_successor changes nothing of the caller state but the connection map,
which only grows. -/
lemma find_successor_frame {net : Net} {s : NodeServer} {id fuel : Nat}
    {s1 : NodeServer} {v : Node}
    (h : s.find_successor net id fuel = some (s1, v)) :
    s1.node = s.node ∧ s1.successor = s.successor ∧ s1.predecessor = s.predecessor ∧
    s1.finger_table = s.finger_table ∧
    ∀ k, k ∈ s.connection_map → k ∈ s1.connection_map := by
  unfold NodeServer.find_successor at h
  cases hfp : s.find_predecessor net id fuel with
  | none => simp [hfp] at h
  | some p =>
    obtain ⟨sa, n⟩ := p
    simp only [hfp] at h
    obtain ⟨f1, f2, f3, f4, f5⟩ := find_predecessor_frame hfp
    by_cases hid : n.id = sa.node.id
    · rw [if_pos hid] at h
      cases hsucc : sa.successor with
      | none => simp [hsucc] at h
      | some v2 =>
        simp only [hsucc] at h
        injection h with h
        injection h with h1 h2
        subst h1
        exact ⟨f1, f2, f3, f4, f5⟩
    · rw [if_neg hid] at h
      cases hg : sa.get_connection n with
      | none => simp [hg] at h
      | some sb =>
        simp only [hg] at h
        cases hl : lookupNode net n.id with
        | none => simp [hl] at h
        | some rn =>
          simp only [hl] at h
          cases hsucc : rn.successor with
          | none => simp [hsucc] at h
          | some v2 =>
            simp only [hsucc] at h
            injection h with h
            injection h with h1 h2
            subst h1
            obtain ⟨g1, g2, g3, g4, g5⟩ := get_connection_frame hg
            exact ⟨g1.trans f1, g2.trans f2, g3.trans f3, g4.trans f4,
                   fun k hk => g5 k (f5 k hk)⟩

/-- A stabilize run whose successor is set, is not self, and answers the
predecessor RPC reduces to a case split on the fetched predecessor; the
intermediate state differs from the start state only in the connection map. -/
lemma stabilize_run {net : Net} {s : NodeServer} {succ : Node} {rn : NodeServer}
    (hs : s.successor = some succ) (hne : succ.id ≠ s.node.id)
    (hlk : lookupNode net succ.id = some rn) :
    ∃ s1, NodeServer.stabilize net s =
      (match rn.predecessor with
       | none => some (s1, false)
       | some x =>
         if s.node.id < x.id ∧ x.id < succ.id then some ({ s1 with successor := some x }, true)
         else some (s1, true)) ∧
      s1.node = s.node ∧ s1.successor = s.successor ∧ s1.predecessor = s.predecessor ∧
      s1.finger_table = s.finger_table := by
  have hg : s.get_connection succ = some { s with connection_map :=
      if succ.id ∈ s.connection_map then s.connection_map else succ.id :: s.connection_map } := by
    unfold NodeServer.get_connection
    rw [if_neg hne]
  refine ⟨{ s with connection_map :=
      if succ.id ∈ s.connection_map then s.connection_map else succ.id :: s.connection_map },
    ?_, rfl, rfl, rfl, rfl⟩
  unfold NodeServer.stabilize
  simp only [hs]
  rw [if_neg hne]
  simp only [hg, hlk]
  rw [hs]

/-- C1: the claim says find_predecessor loops exactly while the id does NOT
lie in the wrapping half-open interval of n and its successor, returning the
first n whose interval holds the id. Refuted at a concrete input: with
self.id = 0, successor.id = 10 and lookup id 5, the id lies in the half-open
interval, so the claimed loop would exit at once and return self; the code
guard (id > n.id && id < succ.id) is instead TRUE, the loop body runs, and
get_connection on n = self panics (modelled none). -/
theorem C1_find_predecessor_bug :
    spec_in_half_open 5 0 10 = true ∧
    NodeServer.find_predecessor net1 serverA1 5 100 = none := ⟨rfl, rfl⟩

/-- C2: the claim says finger_table_start returns (n + 2^k) mod 2^m with
m = 64. Refuted at id 100, k 0: the code reduces modulo NUM_BITS = 64 instead
of modulo 2^64 and returns 37 where the claim demands 101. -/
theorem C2_finger_table_start_bug :
    (NodeServer.new ⟨100, "c"⟩).finger_table_start 0 = 37 ∧
    (100 + 2 ^ 0) % 2 ^ 64 = 101 ∧ (37 : Nat) ≠ 101 := ⟨rfl, rfl, by decide⟩

/-- C3: the claim says join sets the successor to the introducer's answer to
find_successor applied to the joining node's OWN id. Refuted at a concrete
input: node5 joins via introducer node0 of the converged ring of node0 and
node10; the code passes the INTRODUCER's id and yields successor node10,
while find_successor applied to the own id 5 on the introducer does not even
return (it panics, modelled none), so the successor cannot be its result.
The predecessor is indeed cleared. -/
theorem C3_join_bug :
    NodeServer.join net3 (NodeServer.new node5) node0 100 =
      some { node := node5, successor := some node10, predecessor := none,
             finger_table := List.replicate NUM_BITS (some node5),
             connection_map := [node0.id] } ∧
    NodeServer.find_successor net3 server0 5 100 = none := ⟨rfl, rfl⟩

/-- C5: the claim says closest_preceding_finger returns the first finger in
the wrapping open interval from self.id to the lookup id, or self, so its
result is always self or strictly inside that interval. Refuted at a concrete
input: with self.id = 10, lookup id 5 and every finger node7, the code test
(finger.id > id && finger.id < self.id) accepts node7, which is neither self
nor inside the wrapping open interval from 10 to 5. -/
theorem C5_closest_preceding_finger_bug :
    serverC5.closest_preceding_finger 5 = node7 ∧
    node7.id ≠ serverC5.node.id ∧
    spec_in_open node7.id serverC5.node.id 5 = false := ⟨rfl, by decide, rfl⟩

/-- C4 counterexample: the claim says notify is sent in every stabilize run
that reaches the predecessor fetch, including when the fetched predecessor is
unset, and that the adoption interval wraps. Refuted: (1) with the successor's
predecessor unset the code returns WITHOUT notifying (Bool false); (2) with
self.id = 10, successor.id = 2 and fetched x.id = 12, the id 12 lies on the
wrapping open arc from 10 to 2 yet the successor is NOT updated, because the
code comparison does not wrap. -/
theorem C4_stabilize_counterexample :
    (NodeServer.stabilize netC4a serverA4).map Prod.snd = some false ∧
    (NodeServer.stabilize netC4b serverX10).map (fun p => (p.1.successor, p.2)) =
      some (some node2, true) ∧
    spec_in_open node12.id nodeX10.id node2.id = true := ⟨rfl, rfl, rfl⟩

/-- C6 counterexample: the claim says the notify adoption interval correctly
wraps across 0. Refuted: with predecessor.id = 60, self.id = 10 and candidate
id 5, the candidate lies on the wrapping open arc from 60 to 10, yet the code
keeps the old predecessor because its comparison does not wrap. -/
theorem C6_notify_counterexample :
    (s6.notify cand5).predecessor = some node60 ∧
    spec_in_open cand5.id node60.id s6.node.id = true ∧
    node60 ≠ cand5 := ⟨rfl, rfl, by decide⟩

/-- C7 counterexample: the claim says a failing remote call during stabilize
aborts non-fatally with the state left unchanged. Refuted: with the successor
nodeB4 unreachable (empty network), the code unwraps the failed RPC and
panics (modelled none) instead of returning the unchanged state. -/
theorem C7_rpc_failure_counterexample :
    NodeServer.stabilize ([] : Net) serverA4 = none := rfl

/-- C4 amended: for every stabilize call on a node whose successor is set, is
not itself, and answers the RPC: the fetched x = successor.predecessor decides
the run; notify(self) is sent if and only if x is set (when x is unset the
code returns early without notifying); when x is set, x is adopted as the new
successor exactly when self.id < x.id < successor.id as plain non-wrapping
comparisons; the predecessor and the finger table are unchanged. -/
theorem C4_stabilize_behavior (net : Net) (s : NodeServer) (succ : Node) (rn : NodeServer)
    (hs : s.successor = some succ) (hne : succ.id ≠ s.node.id)
    (hlk : lookupNode net succ.id = some rn) :
    ∃ s2, NodeServer.stabilize net s = some (s2, rn.predecessor.isSome) ∧
      s2.node = s.node ∧ s2.predecessor = s.predecessor ∧
      s2.finger_table = s.finger_table ∧
      (rn.predecessor = none → s2.successor = s.successor) ∧
      ∀ y, rn.predecessor = some y →
        s2.successor = if s.node.id < y.id ∧ y.id < succ.id then some y else s.successor := by
  obtain ⟨s1, hrun, h1, h2, h3, h4⟩ := stabilize_run hs hne hlk
  cases hp : rn.predecessor with
  | none =>
    simp only [hp] at hrun
    refine ⟨s1, by simp [hrun], h1, h3, h4, fun _ => h2, fun y hy => ?_⟩
    simp at hy
  | some x =>
    simp only [hp] at hrun
    by_cases hcond : s.node.id < x.id ∧ x.id < succ.id
    · rw [if_pos hcond] at hrun
      refine ⟨{ s1 with successor := some x }, by simp [hrun], h1, h3, h4, ?_, ?_⟩
      · intro hnone; simp at hnone
      · intro y hy
        injection hy with hy
        subst hy
        rw [if_pos hcond]
    · rw [if_neg hcond] at hrun
      refine ⟨s1, by simp [hrun], h1, h3, h4, fun _ => h2, ?_⟩
      intro y hy
      injection hy with hy
      subst hy
      rw [if_neg hcond]
      exact h2

/-- Witness for C4_stabilize_behavior at the wrap fixture: successor node2,
fetched predecessor node12, no adoption because the comparison does not wrap. -/
theorem C4_stabilize_behavior_witness :
    serverX10.successor = some node2 ∧ node2.id ≠ serverX10.node.id ∧
    lookupNode netC4b node2.id = some server2 ∧
    (∃ s2, NodeServer.stabilize netC4b serverX10 = some (s2, server2.predecessor.isSome) ∧
      s2.node = serverX10.node ∧ s2.predecessor = serverX10.predecessor ∧
      s2.finger_table = serverX10.finger_table ∧
      (server2.predecessor = none → s2.successor = serverX10.successor) ∧
      ∀ y, server2.predecessor = some y →
        s2.successor = if serverX10.node.id < y.id ∧ y.id < node2.id then some y
                       else serverX10.successor) :=
  ⟨rfl, by decide, rfl,
   C4_stabilize_behavior netC4b serverX10 node2 server2 rfl (by decide) rfl⟩

/-- C6 amended: notify adopts the candidate when the predecessor is unset;
otherwise it adopts the candidate exactly when
predecessor.id < candidate.id < self.id as plain non-wrapping comparisons, so
a node whose stored predecessor id is at least its own id (the wrap position)
never replaces its predecessor through this test. -/
theorem C6_notify_behavior (s : NodeServer) (c : Node) :
    (s.predecessor = none → s.notify c = { s with predecessor := some c }) ∧
    ∀ v, s.predecessor = some v →
      (s.notify c).predecessor =
        some (if v.id < c.id ∧ c.id < s.node.id then c else v) ∧
      (s.notify c).node = s.node ∧ (s.notify c).successor = s.successor ∧
      (s.node.id ≤ v.id → s.notify c = s) := by
  obtain ⟨ns, ss, ps, fs, cs⟩ := s
  constructor
  · intro h
    replace h : ps = none := h
    subst h
    simp [NodeServer.notify]
  · intro v hv
    replace hv : ps = some v := hv
    subst hv
    refine ⟨by simp [NodeServer.notify], rfl, rfl, ?_⟩
    intro hle
    replace hle : ns.id ≤ v.id := hle
    have hnc : ¬(v.id < c.id ∧ c.id < ns.id) := by
      rintro ⟨ha, hb⟩
      exact absurd (ha.trans hb) (Nat.not_lt.mpr hle)
    simp [NodeServer.notify, hnc]

/-- Witness for C6_notify_behavior at the wrap fixture: predecessor node60,
self id 10, candidate id 5; the candidate is rejected. -/
theorem C6_notify_behavior_witness :
    s6.predecessor = some node60 ∧
    ((s6.notify cand5).predecessor =
        some (if node60.id < cand5.id ∧ cand5.id < s6.node.id then cand5 else node60) ∧
      (s6.notify cand5).node = s6.node ∧ (s6.notify cand5).successor = s6.successor ∧
      (s6.node.id ≤ node60.id → s6.notify cand5 = s6)) :=
  ⟨rfl, (C6_notify_behavior s6 cand5).2 node60 rfl⟩

/-- C7 amended: when the get_predecessor RPC of stabilize fails (the successor
id resolves to no reachable server) the unwrap panics, modelled none: the
operation terminates the task instead of aborting non-fatally; and a failure
inside find_successor propagates to fix_fingers as the same panic. -/
theorem C7_rpc_failure_behavior (net : Net) (s : NodeServer) (succ : Node)
    (hs : s.successor = some succ) (hne : succ.id ≠ s.node.id)
    (hlk : lookupNode net succ.id = none) :
    NodeServer.stabilize net s = none ∧
    ∀ i fuel, s.find_successor net (s.finger_table_start i) fuel = none →
      s.fix_fingers net i fuel = none := by
  constructor
  · have hg : s.get_connection succ = some { s with connection_map :=
        if succ.id ∈ s.connection_map then s.connection_map else succ.id :: s.connection_map } := by
      unfold NodeServer.get_connection
      rw [if_neg hne]
    unfold NodeServer.stabilize
    simp only [hs]
    rw [if_neg hne]
    simp only [hg, hlk]
  · intro i fuel h
    unfold NodeServer.fix_fingers
    simp [h]

/-- Witness for C7_rpc_failure_behavior: serverA4 with successor nodeB4 and an
empty network, so the RPC to nodeB4 fails. -/
theorem C7_rpc_failure_behavior_witness :
    serverA4.successor = some nodeB4 ∧ nodeB4.id ≠ serverA4.node.id ∧
    lookupNode ([] : Net) nodeB4.id = none ∧
    (NodeServer.stabilize ([] : Net) serverA4 = none ∧
     ∀ i fuel, serverA4.find_successor ([] : Net) (serverA4.finger_table_start i) fuel = none →
       serverA4.fix_fingers ([] : Net) i fuel = none) :=
  ⟨rfl, by decide, rfl, C7_rpc_failure_behavior [] serverA4 nodeB4 rfl (by decide) rfl⟩

/-- C8: a freshly constructed node is its own successor and predecessor and
fills every finger entry with itself, and stabilize on it returns the state
fully unchanged with no notify; more generally, on a converged ring (the
successor's predecessor is the node itself) stabilize leaves the successor,
predecessor and finger table unchanged, and the notify it sends leaves the
receiver, whose predecessor is already the sender, fully unchanged. -/
theorem C8_solo_and_converged_stabilize (nd : Node) (net : Net) :
    (NodeServer.new nd).successor = some nd ∧
    (NodeServer.new nd).predecessor = some nd ∧
    (NodeServer.new nd).finger_table = List.replicate NUM_BITS (some nd) ∧
    NodeServer.stabilize net (NodeServer.new nd) = some (NodeServer.new nd, false) ∧
    (∀ (s : NodeServer) (succ : Node) (rn : NodeServer),
      s.successor = some succ → succ.id ≠ s.node.id →
      lookupNode net succ.id = some rn → rn.predecessor = some s.node →
      ∃ s2, NodeServer.stabilize net s = some (s2, true) ∧
        s2.successor = s.successor ∧ s2.predecessor = s.predecessor ∧
        s2.finger_table = s.finger_table) ∧
    ∀ (r : NodeServer) (v : Node), r.predecessor = some v → r.notify v = r := by
  refine ⟨rfl, rfl, rfl, ?_, ?_, ?_⟩
  · unfold NodeServer.stabilize NodeServer.new
    simp
  · intro s succ rn hs hne hlk hpred
    obtain ⟨s1, hrun, h1, h2, h3, h4⟩ := stabilize_run hs hne hlk
    simp only [hpred] at hrun
    have hcon : ¬(s.node.id < s.node.id ∧ s.node.id < succ.id) :=
      fun hc => Nat.lt_irrefl _ hc.1
    rw [if_neg hcon] at hrun
    exact ⟨s1, hrun, h2, h3, h4⟩
  · intro r v hv
    obtain ⟨nr, sr, pr, fr, cr⟩ := r
    replace hv : pr = some v := hv
    subst hv
    simp [NodeServer.notify, Nat.lt_irrefl]

/-- Witness for C8_solo_and_converged_stabilize on the converged two-node
network of serverP and serverQ, and the solo node ndF. -/
theorem C8_solo_and_converged_stabilize_witness :
    NodeServer.stabilize netW (NodeServer.new ndF) = some (NodeServer.new ndF, false) ∧
    (∃ s2, NodeServer.stabilize netW serverP = some (s2, true) ∧
      s2.successor = serverP.successor ∧ s2.predecessor = serverP.predecessor ∧
      s2.finger_table = serverP.finger_table) ∧
    serverQ.notify ndP = serverQ :=
  ⟨(C8_solo_and_converged_stabilize ndF netW).2.2.2.1,
   (C8_solo_and_converged_stabilize ndF netW).2.2.2.2.1 serverP ndQ serverQ rfl
     (by decide) rfl rfl,
   (C8_solo_and_converged_stabilize ndF netW).2.2.2.2.2 serverQ ndP rfl⟩

/-- C9: requesting a connection to a node carrying the own id panics before
any insertion, and consequently, starting from a fresh node, no sequence of
connection requests ever puts the own id into the connection map. -/
theorem C9_self_never_cached (nd : Node) (reqs : List Node) :
    (∀ s n, n.id = s.node.id → NodeServer.get_connection s n = none) ∧
    nd.id ∉ (applyGets (NodeServer.new nd) reqs).connection_map := by
  constructor
  · intro s n h
    unfold NodeServer.get_connection
    rw [if_pos h]
  · have h0 : (NodeServer.new nd).node.id ∉ (NodeServer.new nd).connection_map := by
      simp [NodeServer.new]
    obtain ⟨ha, hb⟩ := applyGets_inv reqs (NodeServer.new nd) h0
    rw [ha] at hb
    exact hb

/-- Witness for C9_self_never_cached: a fresh node with id 0, a request for
its own id panics, and after one foreign request the own id is not cached. -/
theorem C9_self_never_cached_witness :
    NodeServer.get_connection (NodeServer.new ⟨0, "w9"⟩) ⟨0, "x9"⟩ = none ∧
    (⟨0, "w9"⟩ : Node).id ∉
      (applyGets (NodeServer.new ⟨0, "w9"⟩) [⟨3, "r9"⟩]).connection_map :=
  ⟨(C9_self_never_cached ⟨0, "w9"⟩ []).1 (NodeServer.new ⟨0, "w9"⟩) ⟨0, "x9"⟩ rfl,
   (C9_self_never_cached ⟨0, "w9"⟩ [⟨3, "r9"⟩]).2⟩

/-- C10: a fix_fingers run at an index i in the range 1..NUM_BITS that returns
overwrites exactly the finger entry at i, leaves the own node, successor,
predecessor and every other finger entry (index 0 included) unchanged, and can
only grow the connection map. -/
theorem C10_fix_fingers_frame (net : Net) (s : NodeServer) (i fuel : Nat) (s2 : NodeServer)
    (h1 : 1 ≤ i) (h2 : i < NUM_BITS) (hlen : s.finger_table.length = NUM_BITS)
    (h : s.fix_fingers net i fuel = some s2) :
    s2.node = s.node ∧ s2.successor = s.successor ∧ s2.predecessor = s.predecessor ∧
    (∃ v, s2.finger_table = s.finger_table.set i (some v)) ∧
    (∀ j, j ≠ i → s2.finger_table.get? j = s.finger_table.get? j) ∧
    s2.finger_table.get? 0 = s.finger_table.get? 0 ∧
    s2.finger_table.length = s.finger_table.length ∧
    ∀ k, k ∈ s.connection_map → k ∈ s2.connection_map := by
  unfold NodeServer.fix_fingers at h
  cases hfs : s.find_successor net (s.finger_table_start i) fuel with
  | none => simp [hfs] at h
  | some p =>
    obtain ⟨sa, v⟩ := p
    simp only [hfs] at h
    injection h with h
    subst h
    obtain ⟨f1, f2, f3, f4, f5⟩ := find_successor_frame hfs
    refine ⟨f1, f2, f3, ⟨v, by rw [f4]⟩, ?_, ?_, ?_, f5⟩
    · intro j hj
      show (sa.finger_table.set i (some v)).get? j = s.finger_table.get? j
      rw [f4]
      exact List.get?_set_ne _ _ (fun he => hj he.symm)
    · show (sa.finger_table.set i (some v)).get? 0 = s.finger_table.get? 0
      rw [f4]
      exact List.get?_set_ne _ _ (by omega)
    · show (sa.finger_table.set i (some v)).length = s.finger_table.length
      rw [f4, List.length_set]

/-- Witness for C10_fix_fingers_frame: the solo node ndF, index 1, one unit of
fuel, landing in the state sF2. -/
theorem C10_fix_fingers_frame_witness :
    1 ≤ 1 ∧ 1 < NUM_BITS ∧ (NodeServer.new ndF).finger_table.length = NUM_BITS ∧
    NodeServer.fix_fingers ([] : Net) (NodeServer.new ndF) 1 1 = some sF2 ∧
    (sF2.node = (NodeServer.new ndF).node ∧
     sF2.successor = (NodeServer.new ndF).successor ∧
     sF2.predecessor = (NodeServer.new ndF).predecessor ∧
     (∃ v, sF2.finger_table = (NodeServer.new ndF).finger_table.set 1 (some v)) ∧
     (∀ j, j ≠ 1 → sF2.finger_table.get? j = (NodeServer.new ndF).finger_table.get? j) ∧
     sF2.finger_table.get? 0 = (NodeServer.new ndF).finger_table.get? 0 ∧
     sF2.finger_table.length = (NodeServer.new ndF).finger_table.length ∧
     ∀ k, k ∈ (NodeServer.new ndF).connection_map → k ∈ sF2.connection_map) :=
  ⟨Nat.le_refl 1, by decide, rfl, rfl,
   C10_fix_fingers_frame [] (NodeServer.new ndF) 1 1 sF2 (Nat.le_refl 1) (by decide) rfl rfl⟩

end Chord
